import Mathlib

/-!
Verification of the lurk_lcsc wire-protocol codec (Rust crate `lurk_lcsc`).

Shallow embedding conventions:
* a byte is a `Nat` (theorems add `< 256` bounds where they matter);
* `Box<str>` / `Arc<str>` fields are modelled as their UTF-8 byte sequences
  (`List Nat`); for valid UTF-8 input `String::from_utf8_lossy` is the
  identity on those bytes, so decoding is byte-level;
* Rust indexing / slicing that panics on an out-of-range index is modelled
  with `Option` (a `none` models the panic); the non-panicking
  `slice.get(range)` is modelled with the same `Option`-returning slice;
* the `TcpStream` handles carried by `Packet`, `Protocol` and
  `PktCharacter.author` are opaque connection handles that never influence
  the bytes; they are dropped from the embedding.
-/

namespace Lurk

/-- Models `u16::from_le_bytes([a, b])` (also `usize::from_le_bytes([a, b, 0, …])`). -/
def u16FromLe (a b : Nat) : Nat := a + 256 * b

/-- Models `u16::to_le_bytes` of a `u16` value. -/
def u16ToLe (v : Nat) : List Nat := [v % 256, v / 256 % 256]

/-- Models `i16::to_le_bytes` (two's complement, little endian). -/
def i16ToLe (v : Int) : List Nat :=
  let n := (v % 65536).toNat
  [n % 256, n / 256 % 256]

/-- Models `i16::from_le_bytes([a, b])`. -/
def i16FromLe (a b : Nat) : Int :=
  let n := a + 256 * b
  if n < 32768 then (n : Int) else (n : Int) - 65536

/-- Models `Vec::resize(n, 0x00)`: truncate to `n` elements, or right-pad with zeros. -/
def resize (l : List Nat) (n : Nat) : List Nat :=
  l.take n ++ List.replicate (n - l.length) 0

/-- Models `String::from_utf8_lossy(bytes).split('\0').take(1).collect()`:
the prefix of the bytes before the first NUL. -/
def nulSplitFirst (l : List Nat) : List Nat := l.takeWhile (fun b => b ≠ 0)

/-- Panicking slice `body[a..b]`, and also the checked `slice.get(a..b)`:
`some` exactly when `a ≤ b ∧ b ≤ l.length`. -/
def sliceRange (l : List Nat) (a b : Nat) : Option (List Nat) :=
  if a ≤ b ∧ b ≤ l.length then some ((l.drop a).take (b - a)) else none

/-- Panicking slice `body[a..]`. -/
def sliceFrom (l : List Nat) (a : Nat) : Option (List Nat) :=
  if a ≤ l.length then some (l.drop a) else none

/-- Panicking index `body[i]`. -/
def byteAt (l : List Nat) (i : Nat) : Option Nat := l.get? i

/-- Slice `body[a..b]` under an in-range guard established by the caller. -/
def sliceD (l : List Nat) (a b : Nat) : List Nat := (l.drop a).take (b - a)

/-- The `PktType` enum of `src/pkt_type.rs` (message-kind tags 0–14). -/
inductive PktType where
  | DEFAULT
  | MESSAGE
  | CHANGEROOM
  | FIGHT
  | PVPFIGHT
  | LOOT
  | START
  | ERROR
  | ACCEPT
  | ROOM
  | CHARACTER
  | GAME
  | LEAVE
  | CONNECTION
  | VERSION
  deriving DecidableEq, Repr

/-- Models `impl From<PktType> for u8` (the `as u8` cast over declaration order). -/
def PktType.toByte : PktType → Nat
  | .DEFAULT => 0
  | .MESSAGE => 1
  | .CHANGEROOM => 2
  | .FIGHT => 3
  | .PVPFIGHT => 4
  | .LOOT => 5
  | .START => 6
  | .ERROR => 7
  | .ACCEPT => 8
  | .ROOM => 9
  | .CHARACTER => 10
  | .GAME => 11
  | .LEAVE => 12
  | .CONNECTION => 13
  | .VERSION => 14

/-- Models `impl From<u8> for PktType` of `src/pkt_type.rs`. -/
def PktType.ofByte : Nat → PktType
  | 0 => .DEFAULT
  | 1 => .MESSAGE
  | 2 => .CHANGEROOM
  | 3 => .FIGHT
  | 4 => .PVPFIGHT
  | 5 => .LOOT
  | 6 => .START
  | 7 => .ERROR
  | 8 => .ACCEPT
  | 9 => .ROOM
  | 10 => .CHARACTER
  | 11 => .GAME
  | 12 => .LEAVE
  | 13 => .CONNECTION
  | 14 => .VERSION
  | _ => .DEFAULT

/-- The `LurkError` enum of `src/lurk_error.rs` (error codes 0–8). -/
inductive LurkError where
  | OTHER
  | BADROOM
  | PLAYEREXISTS
  | BADMONSTER
  | STATERROR
  | NOTREADY
  | NOTARGET
  | NOFIGHT
  | NOPLAYERCOMBAT
  deriving DecidableEq, Repr

/-- Models `impl From<LurkError> for u8`. -/
def LurkError.toByte : LurkError → Nat
  | .OTHER => 0
  | .BADROOM => 1
  | .PLAYEREXISTS => 2
  | .BADMONSTER => 3
  | .STATERROR => 4
  | .NOTREADY => 5
  | .NOTARGET => 6
  | .NOFIGHT => 7
  | .NOPLAYERCOMBAT => 8

/-- Models `impl From<u8> for LurkError` of `src/lurk_error.rs`. -/
def LurkError.ofByte : Nat → LurkError
  | 0 => .OTHER
  | 1 => .BADROOM
  | 2 => .PLAYEREXISTS
  | 3 => .BADMONSTER
  | 4 => .STATERROR
  | 5 => .NOTREADY
  | 6 => .NOTARGET
  | 7 => .NOFIGHT
  | 8 => .NOPLAYERCOMBAT
  | _ => .OTHER

/-- The `CharacterFlags` bitflags wrapper of `src/flags.rs` (an 8-bit set). -/
structure CharacterFlags where
  bits : Nat
  deriving DecidableEq, Repr

namespace CharacterFlags

/-- Models `CharacterFlags::ALIVE = 0b1000_0000`. -/
def ALIVE : CharacterFlags := ⟨0x80⟩
/-- Models `CharacterFlags::BATTLE = 0b0100_0000`. -/
def BATTLE : CharacterFlags := ⟨0x40⟩
/-- Models `CharacterFlags::MONSTER = 0b0010_0000`. -/
def MONSTER : CharacterFlags := ⟨0x20⟩
/-- Models `CharacterFlags::STARTED = 0b0001_0000`. -/
def STARTED : CharacterFlags := ⟨0x10⟩
/-- Models `CharacterFlags::READY = 0b0000_1000`. -/
def READY : CharacterFlags := ⟨0x08⟩

/-- bitflags `self.contains(other)`: all bits of `other` are set in `self`. -/
def contains (a b : CharacterFlags) : Bool := a.bits &&& b.bits == b.bits

/-- bitflags `a | b`. -/
def union (a b : CharacterFlags) : CharacterFlags := ⟨a.bits ||| b.bits⟩

/-- bitflags `from_bits_truncate`: keep only the five defined bits. -/
def from_bits_truncate (b : Nat) : CharacterFlags := ⟨b &&& 0xF8⟩

/-- Models `CharacterFlags::is_alive`. -/
def is_alive (f : CharacterFlags) : Bool := f.contains ALIVE
/-- Models `CharacterFlags::is_battle`. -/
def is_battle (f : CharacterFlags) : Bool := f.contains BATTLE
/-- Models `CharacterFlags::is_started`. -/
def is_started (f : CharacterFlags) : Bool := f.contains STARTED
/-- Models `CharacterFlags::is_ready`. -/
def is_ready (f : CharacterFlags) : Bool := f.contains READY

/-- Models `CharacterFlags::dead() = BATTLE | READY`. -/
def dead : CharacterFlags := union BATTLE READY
/-- Models `CharacterFlags::alive() = ALIVE | BATTLE | READY`. -/
def alive : CharacterFlags := union (union ALIVE BATTLE) READY
/-- Models `CharacterFlags::reset() = ALIVE | BATTLE`. -/
def reset : CharacterFlags := union ALIVE BATTLE

end CharacterFlags

/-- Models `PktMessage` of `src/packet/message.rs` (strings as UTF-8 bytes). -/
structure PktMessage where
  packet_type : PktType
  message_len : Nat
  recipient : List Nat
  sender : List Nat
  narration : Bool
  message : List Nat
  deriving DecidableEq, Repr

/-- Models `PktMessage::serialize`: the complete packet handed to `write_all`. -/
def PktMessage.serialize (m : PktMessage) : List Nat :=
  [m.packet_type.toByte] ++ u16ToLe m.message_len
    ++ resize m.recipient 32
    ++ (let s_bytes := resize m.sender 30
        if m.narration then s_bytes ++ [0x00, 0x01] else resize s_bytes 32)
    ++ m.message

/-- Models `PktMessage::deserialize` on a packet with resolved kind `mt` and `body`.
The body is indexed up to `body[34..66]` and `body[66..]`; a body shorter
than 66 bytes panics in Rust, modelled by the single length guard. -/
def PktMessage.deserialize (mt : PktType) (body : List Nat) : Option PktMessage :=
  if 66 ≤ body.length then
    let r_bytes := sliceD body 2 34
    let s_bytes := sliceD body 34 66
    -- the checked `s_bytes.get(32..34)`; `truncate(32)` in the marker branch
    let ns : Bool × List Nat :=
      match sliceRange s_bytes 32 34 with
      | some [0x00, 0x01] => (true, s_bytes.take 32)
      | _ => (false, s_bytes)
    some { packet_type := mt
           message_len := u16FromLe (body.getD 0 0) (body.getD 1 0)
           recipient := nulSplitFirst r_bytes
           sender := nulSplitFirst ns.2
           narration := ns.1
           message := body.drop 66 }
  else none

/-- Models `PktChangeRoom` of `src/packet/change_room.rs`. -/
structure PktChangeRoom where
  packet_type : PktType
  room_number : Nat
  deriving DecidableEq, Repr

/-- Models `PktChangeRoom::serialize`. -/
def PktChangeRoom.serialize (p : PktChangeRoom) : List Nat :=
  [p.packet_type.toByte] ++ u16ToLe p.room_number

/-- Models `PktChangeRoom::deserialize` (indexes `body[0]`, `body[1]`). -/
def PktChangeRoom.deserialize (mt : PktType) (body : List Nat) : Option PktChangeRoom :=
  if 2 ≤ body.length then
    some { packet_type := mt
           room_number := u16FromLe (body.getD 0 0) (body.getD 1 0) }
  else none

/-- Models `PktFight` of `src/packet/fight.rs` (tag only). -/
structure PktFight where
  packet_type : PktType
  deriving DecidableEq, Repr

/-- Models `PktFight::default()`. -/
def PktFight.default : PktFight := { packet_type := .FIGHT }

/-- Models `PktFight::serialize`. -/
def PktFight.serialize (p : PktFight) : List Nat := [p.packet_type.toByte]

/-- Models `PktFight::deserialize`. -/
def PktFight.deserialize (mt : PktType) (_body : List Nat) : Option PktFight :=
  pure { packet_type := mt }

/-- Models `PktPVPFight` of `src/packet/pvp_fight.rs`. -/
structure PktPVPFight where
  packet_type : PktType
  target_name : List Nat
  deriving DecidableEq, Repr

/-- Models `PktPVPFight::serialize`. -/
def PktPVPFight.serialize (p : PktPVPFight) : List Nat :=
  [p.packet_type.toByte] ++ resize p.target_name 32

/-- Models `PktPVPFight::deserialize` (slices `body[0..32]`). -/
def PktPVPFight.deserialize (mt : PktType) (body : List Nat) : Option PktPVPFight :=
  if 32 ≤ body.length then
    some { packet_type := mt, target_name := nulSplitFirst (sliceD body 0 32) }
  else none

/-- Models `PktLoot` of `src/packet/loot.rs`. -/
structure PktLoot where
  packet_type : PktType
  target_name : List Nat
  deriving DecidableEq, Repr

/-- Models `PktLoot::serialize`. -/
def PktLoot.serialize (p : PktLoot) : List Nat :=
  [p.packet_type.toByte] ++ resize p.target_name 32

/-- Models `PktLoot::deserialize` (slices `body[0..32]`). -/
def PktLoot.deserialize (mt : PktType) (body : List Nat) : Option PktLoot :=
  if 32 ≤ body.length then
    some { packet_type := mt, target_name := nulSplitFirst (sliceD body 0 32) }
  else none

/-- Models `PktStart` of `src/packet/start.rs` (tag only). -/
structure PktStart where
  packet_type : PktType
  deriving DecidableEq, Repr

/-- Models `PktStart::default()`. -/
def PktStart.default : PktStart := { packet_type := .START }

/-- Models `PktStart::serialize`. -/
def PktStart.serialize (p : PktStart) : List Nat := [p.packet_type.toByte]

/-- Models `PktStart::deserialize`. -/
def PktStart.deserialize (mt : PktType) (_body : List Nat) : Option PktStart :=
  pure { packet_type := mt }

/-- Models `PktError` of `src/packet/error.rs`. -/
structure PktError where
  packet_type : PktType
  error : LurkError
  message_len : Nat
  message : List Nat
  deriving DecidableEq, Repr

/-- Models `PktError::serialize`. -/
def PktError.serialize (p : PktError) : List Nat :=
  [p.packet_type.toByte] ++ [p.error.toByte] ++ u16ToLe p.message_len ++ p.message

/-- Models `PktError::deserialize` (indexes `body[0]`, `body[1]`, `body[2]`, `body[3..]`;
note the variable message IS NUL-split here, unlike the descriptions). -/
def PktError.deserialize (mt : PktType) (body : List Nat) : Option PktError :=
  if 3 ≤ body.length then
    some { packet_type := mt
           error := LurkError.ofByte (body.getD 0 0)
           message_len := u16FromLe (body.getD 1 0) (body.getD 2 0)
           message := nulSplitFirst (body.drop 3) }
  else none

/-- Models `PktAccept` of `src/packet/accept.rs`. -/
structure PktAccept where
  packet_type : PktType
  accept_type : Nat
  deriving DecidableEq, Repr

/-- Models `PktAccept::serialize`. -/
def PktAccept.serialize (p : PktAccept) : List Nat :=
  [p.packet_type.toByte] ++ [p.accept_type]

/-- Models `PktAccept::deserialize` (indexes `body[0]`; the byte is stored verbatim,
with no `PktType` sentinel-defaulting applied). -/
def PktAccept.deserialize (mt : PktType) (body : List Nat) : Option PktAccept :=
  if 1 ≤ body.length then
    some { packet_type := mt, accept_type := body.getD 0 0 }
  else none

/-- Models `PktRoom` of `src/packet/room.rs`. -/
structure PktRoom where
  packet_type : PktType
  room_number : Nat
  room_name : List Nat
  description_len : Nat
  description : List Nat
  deriving DecidableEq, Repr

/-- Models `PktRoom::serialize`. -/
def PktRoom.serialize (p : PktRoom) : List Nat :=
  [p.packet_type.toByte] ++ u16ToLe p.room_number
    ++ resize p.room_name 32 ++ u16ToLe p.description_len ++ p.description

/-- Models `PktRoom::deserialize` (indexes up to `body[36..]`; the description is
the raw tail, no NUL split). -/
def PktRoom.deserialize (mt : PktType) (body : List Nat) : Option PktRoom :=
  if 36 ≤ body.length then
    some { packet_type := mt
           room_number := u16FromLe (body.getD 0 0) (body.getD 1 0)
           room_name := nulSplitFirst (sliceD body 2 34)
           description_len := u16FromLe (body.getD 34 0) (body.getD 35 0)
           description := body.drop 36 }
  else none

/-- Models `PktCharacter` of `src/packet/character.rs`; the `author` connection
handle (never encoded, an opaque stream reference on decode) is dropped. -/
structure PktCharacter where
  packet_type : PktType
  name : List Nat
  flags : CharacterFlags
  attack : Nat
  defense : Nat
  regen : Nat
  health : Int
  gold : Nat
  current_room : Nat
  description_len : Nat
  description : List Nat
  deriving DecidableEq, Repr

/-- Models `PktCharacter::serialize`. -/
def PktCharacter.serialize (p : PktCharacter) : List Nat :=
  [p.packet_type.toByte] ++ resize p.name 32 ++ [p.flags.bits]
    ++ u16ToLe p.attack ++ u16ToLe p.defense ++ u16ToLe p.regen
    ++ i16ToLe p.health ++ u16ToLe p.gold ++ u16ToLe p.current_room
    ++ u16ToLe p.description_len ++ p.description

/-- Models `PktCharacter::deserialize` (indexes up to `body[47..]`). -/
def PktCharacter.deserialize (mt : PktType) (body : List Nat) : Option PktCharacter :=
  if 47 ≤ body.length then
    some { packet_type := mt
           name := nulSplitFirst (sliceD body 0 32)
           flags := CharacterFlags.from_bits_truncate (body.getD 32 0)
           attack := u16FromLe (body.getD 33 0) (body.getD 34 0)
           defense := u16FromLe (body.getD 35 0) (body.getD 36 0)
           regen := u16FromLe (body.getD 37 0) (body.getD 38 0)
           health := i16FromLe (body.getD 39 0) (body.getD 40 0)
           gold := u16FromLe (body.getD 41 0) (body.getD 42 0)
           current_room := u16FromLe (body.getD 43 0) (body.getD 44 0)
           description_len := u16FromLe (body.getD 45 0) (body.getD 46 0)
           description := body.drop 47 }
  else none

/-- Models `PktGame` of `src/packet/game.rs`. -/
structure PktGame where
  packet_type : PktType
  initial_points : Nat
  stat_limit : Nat
  description_len : Nat
  description : List Nat
  deriving DecidableEq, Repr

/-- Models `PktGame::serialize`. -/
def PktGame.serialize (p : PktGame) : List Nat :=
  [p.packet_type.toByte] ++ u16ToLe p.initial_points ++ u16ToLe p.stat_limit
    ++ u16ToLe p.description_len ++ p.description

/-- Models `PktGame::deserialize` (indexes up to `body[6..]`). -/
def PktGame.deserialize (mt : PktType) (body : List Nat) : Option PktGame :=
  if 6 ≤ body.length then
    some { packet_type := mt
           initial_points := u16FromLe (body.getD 0 0) (body.getD 1 0)
           stat_limit := u16FromLe (body.getD 2 0) (body.getD 3 0)
           description_len := u16FromLe (body.getD 4 0) (body.getD 5 0)
           description := body.drop 6 }
  else none

/-- Models `PktLeave` of `src/packet/leave.rs` (tag only). -/
structure PktLeave where
  packet_type : PktType
  deriving DecidableEq, Repr

/-- Models `PktLeave::default()`. -/
def PktLeave.default : PktLeave := { packet_type := .LEAVE }

/-- Models `PktLeave::serialize`. -/
def PktLeave.serialize (p : PktLeave) : List Nat := [p.packet_type.toByte]

/-- Models `PktLeave::deserialize`. -/
def PktLeave.deserialize (mt : PktType) (_body : List Nat) : Option PktLeave :=
  pure { packet_type := mt }

/-- Models `PktConnection` of `src/packet/connection.rs`. -/
structure PktConnection where
  packet_type : PktType
  room_number : Nat
  room_name : List Nat
  description_len : Nat
  description : List Nat
  deriving DecidableEq, Repr

/-- Models `PktConnection::serialize`. -/
def PktConnection.serialize (p : PktConnection) : List Nat :=
  [p.packet_type.toByte] ++ u16ToLe p.room_number
    ++ resize p.room_name 32 ++ u16ToLe p.description_len ++ p.description

/-- Models `PktConnection::deserialize` (indexes up to `body[36..]`). -/
def PktConnection.deserialize (mt : PktType) (body : List Nat) : Option PktConnection :=
  if 36 ≤ body.length then
    some { packet_type := mt
           room_number := u16FromLe (body.getD 0 0) (body.getD 1 0)
           room_name := nulSplitFirst (sliceD body 2 34)
           description_len := u16FromLe (body.getD 34 0) (body.getD 35 0)
           description := body.drop 36 }
  else none

/-- Models `PktVersion` of `src/packet/version.rs`. -/
structure PktVersion where
  packet_type : PktType
  major_rev : Nat
  minor_rev : Nat
  extensions_len : Nat
  extensions : Option (List Nat)
  deriving DecidableEq, Repr

/-- Models `PktVersion::serialize`. -/
def PktVersion.serialize (p : PktVersion) : List Nat :=
  [p.packet_type.toByte] ++ [p.major_rev] ++ [p.minor_rev]
    ++ u16ToLe p.extensions_len
    ++ (match p.extensions with
        | some e => e
        | none => [])

/-- Models `PktVersion::deserialize`: the extension fields are unconditionally
`0` / `None` ("Server currently does not use extensions"). -/
def PktVersion.deserialize (mt : PktType) (body : List Nat) : Option PktVersion :=
  if 2 ≤ body.length then
    some { packet_type := mt
           major_rev := body.getD 0 0
           minor_rev := body.getD 1 0
           extensions_len := 0
           extensions := none }
  else none

/-- The `Protocol` tagged union of `src/protocol.rs`; each variant pairs an
opaque connection handle (dropped here) with one decoded payload. -/
inductive Protocol where
  | Message : PktMessage → Protocol
  | ChangeRoom : PktChangeRoom → Protocol
  | Fight : PktFight → Protocol
  | PVPFight : PktPVPFight → Protocol
  | Loot : PktLoot → Protocol
  | Start : PktStart → Protocol
  | Error : PktError → Protocol
  | Accept : PktAccept → Protocol
  | Room : PktRoom → Protocol
  | Character : PktCharacter → Protocol
  | Game : PktGame → Protocol
  | Leave : PktLeave → Protocol
  | Connection : PktConnection → Protocol
  | Version : PktVersion → Protocol
  deriving DecidableEq, Repr

/-- The bytes `Protocol::send` serializes into its in-memory `byte_stream`
buffer (the `match self` dispatch to the payload's `serialize`). -/
def Protocol.encode : Protocol → List Nat
  | .Message p => p.serialize
  | .ChangeRoom p => p.serialize
  | .Fight p => p.serialize
  | .PVPFight p => p.serialize
  | .Loot p => p.serialize
  | .Start p => p.serialize
  | .Error p => p.serialize
  | .Accept p => p.serialize
  | .Room p => p.serialize
  | .Character p => p.serialize
  | .Game p => p.serialize
  | .Leave p => p.serialize
  | .Connection p => p.serialize
  | .Version p => p.serialize

/-- Models `Protocol::send`: serialize the payload completely into one in-memory
buffer, then issue a single `write_all` of that buffer on the author's
connection handle. The result is the sequence of `write_all` calls the
connection receives (writing into the in-memory `Vec` cannot fail, so the
`?` propagation before the connection write never fires). -/
def Protocol.send (p : Protocol) : List (List Nat) :=
  let byte_stream := Protocol.encode p
  [byte_stream]

/-- Codec-level dispatch: the per-kind `deserialize` a frame of resolved
kind `k` with body `body` is decoded by (the association used both by
`Protocol::recv` and by each `Parser` implementation). -/
def decodePayload (k : PktType) (body : List Nat) : Option Protocol :=
  match k with
  | .DEFAULT => none
  | .MESSAGE => (PktMessage.deserialize k body).map .Message
  | .CHANGEROOM => (PktChangeRoom.deserialize k body).map .ChangeRoom
  | .FIGHT => (PktFight.deserialize k body).map .Fight
  | .PVPFIGHT => (PktPVPFight.deserialize k body).map .PVPFight
  | .LOOT => (PktLoot.deserialize k body).map .Loot
  | .START => (PktStart.deserialize k body).map .Start
  | .ERROR => (PktError.deserialize k body).map .Error
  | .ACCEPT => (PktAccept.deserialize k body).map .Accept
  | .ROOM => (PktRoom.deserialize k body).map .Room
  | .CHARACTER => (PktCharacter.deserialize k body).map .Character
  | .GAME => (PktGame.deserialize k body).map .Game
  | .LEAVE => (PktLeave.deserialize k body).map .Leave
  | .CONNECTION => (PktConnection.deserialize k body).map .Connection
  | .VERSION => (PktVersion.deserialize k body).map .Version

/-- Build the frame from encoded bytes (tag byte resolves the kind via
`PktType::from`, the rest is the body) and decode it with that kind's codec. -/
def decodeFrame (bytes : List Nat) : Option Protocol :=
  match bytes with
  | [] => none
  | b :: body => decodePayload (PktType.ofByte b) body

/-- Failure classes of `Protocol::recv`: `unexpectedEof` models every
`ErrorKind::UnexpectedEof` (absent or short read), `unsupported` models
`ErrorKind::Unsupported` for the `DEFAULT` sentinel, and `panicked` models
a Rust panic from decoding an under-length body (unreachable from `recv`). -/
inductive RecvErr where
  | unexpectedEof
  | unsupported
  | panicked
  deriving DecidableEq, Repr

/-- Models `TcpStream::read_exact(buffer)` on a stream modelled as the list of
bytes it will yield: consume exactly `n` bytes or fail. -/
def readExact (s : List Nat) (n : Nat) : Option (List Nat × List Nat) :=
  if n ≤ s.length then some (s.take n, s.drop n) else none

/-- Models `Packet::read_extended` of `src/packet.rs`: read the `n`-byte fixed
buffer, take the little-endian u16 length at offsets `index`, read that
many further bytes and append them to the buffer. -/
def Packet.read_extended (s : List Nat) (n : Nat) (index : Nat × Nat) :
    Option (List Nat × List Nat) := do
  let (buffer, rest) ← readExact s n
  let length := u16FromLe (buffer.getD index.1 0) (buffer.getD index.2 0)
  let (desc, rest2) ← readExact rest length
  pure (buffer ++ desc, rest2)

/-- Models `Protocol::recv` of `src/protocol.rs`: read a 1-byte tag (0 bytes on a
closed stream is `UnexpectedEof`), resolve the kind (the `DEFAULT` sentinel
is `Unsupported`), read the kind's fixed or extended body, and decode. -/
def Protocol.recv (s : List Nat) : Except RecvErr (Protocol × List Nat) :=
  match s with
  | [] => .error .unexpectedEof
  | b :: rest =>
    match PktType.ofByte b with
    | .MESSAGE =>
      match Packet.read_extended rest 66 (0, 1) with
      | none => .error .unexpectedEof
      | some (body, rest2) =>
        match PktMessage.deserialize .MESSAGE body with
        | some p => .ok (.Message p, rest2)
        | none => .error .panicked
    | .CHANGEROOM =>
      match readExact rest 2 with
      | none => .error .unexpectedEof
      | some (body, rest2) =>
        match PktChangeRoom.deserialize .CHANGEROOM body with
        | some p => .ok (.ChangeRoom p, rest2)
        | none => .error .panicked
    | .FIGHT => .ok (.Fight PktFight.default, rest)
    | .PVPFIGHT =>
      match readExact rest 32 with
      | none => .error .unexpectedEof
      | some (body, rest2) =>
        match PktPVPFight.deserialize .PVPFIGHT body with
        | some p => .ok (.PVPFight p, rest2)
        | none => .error .panicked
    | .LOOT =>
      match readExact rest 32 with
      | none => .error .unexpectedEof
      | some (body, rest2) =>
        match PktLoot.deserialize .LOOT body with
        | some p => .ok (.Loot p, rest2)
        | none => .error .panicked
    | .START => .ok (.Start PktStart.default, rest)
    | .ERROR =>
      match Packet.read_extended rest 3 (1, 2) with
      | none => .error .unexpectedEof
      | some (body, rest2) =>
        match PktError.deserialize .ERROR body with
        | some p => .ok (.Error p, rest2)
        | none => .error .panicked
    | .ACCEPT =>
      match readExact rest 1 with
      | none => .error .unexpectedEof
      | some (body, rest2) =>
        match PktAccept.deserialize .ACCEPT body with
        | some p => .ok (.Accept p, rest2)
        | none => .error .panicked
    | .ROOM =>
      match Packet.read_extended rest 36 (34, 35) with
      | none => .error .unexpectedEof
      | some (body, rest2) =>
        match PktRoom.deserialize .ROOM body with
        | some p => .ok (.Room p, rest2)
        | none => .error .panicked
    | .CHARACTER =>
      match Packet.read_extended rest 47 (45, 46) with
      | none => .error .unexpectedEof
      | some (body, rest2) =>
        match PktCharacter.deserialize .CHARACTER body with
        | some p => .ok (.Character p, rest2)
        | none => .error .panicked
    | .GAME =>
      match Packet.read_extended rest 6 (4, 5) with
      | none => .error .unexpectedEof
      | some (body, rest2) =>
        match PktGame.deserialize .GAME body with
        | some p => .ok (.Game p, rest2)
        | none => .error .panicked
    | .LEAVE => .ok (.Leave PktLeave.default, rest)
    | .CONNECTION =>
      match Packet.read_extended rest 36 (34, 35) with
      | none => .error .unexpectedEof
      | some (body, rest2) =>
        match PktConnection.deserialize .CONNECTION body with
        | some p => .ok (.Connection p, rest2)
        | none => .error .panicked
    | .VERSION =>
      match Packet.read_extended rest 4 (2, 3) with
      | none => .error .unexpectedEof
      | some (body, rest2) =>
        match PktVersion.deserialize .VERSION body with
        | some p => .ok (.Version p, rest2)
        | none => .error .panicked
    | .DEFAULT => .error .unsupported

/-! Helper lemmas about the byte-level primitives. -/

theorem resize_length (l : List Nat) (n : Nat) : (resize l n).length = n := by
  simp [resize]
  omega

theorem resize_eq_append (l : List Nat) (n : Nat) (h : l.length ≤ n) :
    resize l n = l ++ List.replicate (n - l.length) 0 := by
  simp [resize, List.take_of_length_le h]

theorem nulSplitFirst_append_replicate (l : List Nat) (k : Nat) (h : 0 ∉ l) :
    nulSplitFirst (l ++ List.replicate k 0) = l := by
  induction l with
  | nil =>
    cases k with
    | zero => rfl
    | succ m => simp [nulSplitFirst, List.replicate_succ, List.takeWhile]
  | cons a t ih =>
    have ha : a ≠ 0 := by intro hh; exact h (by simp [hh])
    have ht : 0 ∉ t := by intro hh; exact h (by simp [hh])
    have hih := ih ht
    simp only [nulSplitFirst, ne_eq, decide_not] at hih ⊢
    simp [ha, hih]

theorem nulSplitFirst_resize (l : List Nat) (n : Nat) (hlen : l.length ≤ n)
    (h : 0 ∉ l) : nulSplitFirst (resize l n) = l := by
  rw [resize_eq_append l n hlen, nulSplitFirst_append_replicate l _ h]

theorem u16ToLe_length (v : Nat) : (u16ToLe v).length = 2 := rfl

theorem i16ToLe_length (v : Int) : (i16ToLe v).length = 2 := rfl

theorem u16_round (v : Nat) (h : v < 65536) :
    u16FromLe ((u16ToLe v).getD 0 0) ((u16ToLe v).getD 1 0) = v := by
  simp [u16FromLe, u16ToLe]
  omega

theorem i16_round (v : Int) (h1 : -32768 ≤ v) (h2 : v < 32768) :
    i16FromLe ((i16ToLe v).getD 0 0) ((i16ToLe v).getD 1 0) = v := by
  simp only [i16FromLe, i16ToLe, List.getD_cons_zero, List.getD_cons_succ]
  omega

theorem getD_take (l : List Nat) (n i d : Nat) (h : i < n) :
    (l.take n).getD i d = l.getD i d := by
  induction l generalizing n i with
  | nil => simp
  | cons a t ih =>
    cases n with
    | zero => omega
    | succ m =>
      cases i with
      | zero => rfl
      | succ j => simpa using ih m j (by omega)

theorem getD_append_lt (l₁ l₂ : List Nat) (i d : Nat) (h : i < l₁.length) :
    (l₁ ++ l₂).getD i d = l₁.getD i d := by
  induction l₁ generalizing i with
  | nil => simp at h
  | cons a t ih =>
    cases i with
    | zero => rfl
    | succ j => simpa using ih j (by simpa using h)

theorem getD_append_ge (l₁ l₂ : List Nat) (i d : Nat) (h : l₁.length ≤ i) :
    (l₁ ++ l₂).getD i d = l₂.getD (i - l₁.length) d := by
  induction l₁ generalizing i with
  | nil => simp
  | cons a t ih =>
    cases i with
    | zero => simp at h
    | succ j => simpa using ih j (by simpa using h)

theorem drop_append_len (l₁ l₂ : List Nat) (n : Nat) (h : l₁.length = n) :
    (l₁ ++ l₂).drop n = l₂ := List.drop_left' h

theorem take_append_len (l₁ l₂ : List Nat) (n : Nat) (h : l₁.length = n) :
    (l₁ ++ l₂).take n = l₁ := List.take_left' h

theorem sliceD_append (A B C : List Nat) (a b : Nat) (hA : A.length = a)
    (hB : B.length = b - a) : sliceD (A ++ (B ++ C)) a b = B := by
  unfold sliceD
  rw [drop_append_len A (B ++ C) a hA, take_append_len B C _ hB]

theorem nulSplitFirst_of_not_mem (l : List Nat) (h : 0 ∉ l) :
    nulSplitFirst l = l := by
  have := nulSplitFirst_append_replicate l 0 h
  simpa using this

theorem PktType.ofByte_toByte (k : PktType) : PktType.ofByte k.toByte = k := by
  cases k <;> rfl

theorem LurkError.code_ofByte_toByte (e : LurkError) : LurkError.ofByte e.toByte = e := by
  cases e <;> rfl

/-! Per-kind round trips: decoding the frame built from the encoder's bytes. -/

theorem decodeFrame_changeRoom (p : PktChangeRoom)
    (hpt : p.packet_type = .CHANGEROOM) (h : p.room_number < 65536) :
    decodeFrame p.serialize = some (.ChangeRoom p) := by
  obtain ⟨pt, rn⟩ := p
  cases hpt
  dsimp only at h
  simp only [PktChangeRoom.serialize, u16ToLe, List.cons_append, List.nil_append,
    decodeFrame, PktType.ofByte_toByte, decodePayload, PktChangeRoom.deserialize]
  rw [if_pos (by simp)]
  simp only [List.getD_cons_zero, List.getD_cons_succ, Option.map_some',
    Option.some.injEq, Protocol.ChangeRoom.injEq, PktChangeRoom.mk.injEq]
  refine ⟨trivial, ?_⟩
  simp only [u16FromLe]
  omega

theorem decodeFrame_accept (p : PktAccept) (hpt : p.packet_type = .ACCEPT) :
    decodeFrame p.serialize = some (.Accept p) := by
  obtain ⟨pt, at_⟩ := p
  cases hpt
  simp only [PktAccept.serialize, List.cons_append, List.nil_append,
    decodeFrame, PktType.ofByte_toByte, decodePayload, PktAccept.deserialize]
  rw [if_pos (by simp)]
  simp

theorem decodeFrame_fight (p : PktFight) (hpt : p.packet_type = .FIGHT) :
    decodeFrame p.serialize = some (.Fight p) := by
  obtain ⟨pt⟩ := p
  cases hpt
  rfl

theorem decodeFrame_start (p : PktStart) (hpt : p.packet_type = .START) :
    decodeFrame p.serialize = some (.Start p) := by
  obtain ⟨pt⟩ := p
  cases hpt
  rfl

theorem decodeFrame_leave (p : PktLeave) (hpt : p.packet_type = .LEAVE) :
    decodeFrame p.serialize = some (.Leave p) := by
  obtain ⟨pt⟩ := p
  cases hpt
  rfl

theorem decodeFrame_pvpFight (p : PktPVPFight) (hpt : p.packet_type = .PVPFIGHT)
    (hn : p.target_name.length ≤ 32) (h0 : 0 ∉ p.target_name) :
    decodeFrame p.serialize = some (.PVPFight p) := by
  obtain ⟨pt, name⟩ := p
  cases hpt
  simp only [PktPVPFight.serialize, List.cons_append, List.nil_append,
    decodeFrame, PktType.ofByte_toByte, decodePayload, PktPVPFight.deserialize]
  rw [if_pos (by simp [resize_length])]
  have hslice : sliceD (resize name 32) 0 32 = resize name 32 := by
    unfold sliceD
    simp [List.take_of_length_le, resize_length]
  simp [hslice, nulSplitFirst_resize name 32 hn h0]

theorem decodeFrame_loot (p : PktLoot) (hpt : p.packet_type = .LOOT)
    (hn : p.target_name.length ≤ 32) (h0 : 0 ∉ p.target_name) :
    decodeFrame p.serialize = some (.Loot p) := by
  obtain ⟨pt, name⟩ := p
  cases hpt
  simp only [PktLoot.serialize, List.cons_append, List.nil_append,
    decodeFrame, PktType.ofByte_toByte, decodePayload, PktLoot.deserialize]
  rw [if_pos (by simp [resize_length])]
  have hslice : sliceD (resize name 32) 0 32 = resize name 32 := by
    unfold sliceD
    simp [List.take_of_length_le, resize_length]
  simp [hslice, nulSplitFirst_resize name 32 hn h0]

theorem decodeFrame_version (p : PktVersion) (hpt : p.packet_type = .VERSION)
    (hel : p.extensions_len = 0) (he : p.extensions = none) :
    decodeFrame p.serialize = some (.Version p) := by
  obtain ⟨pt, maj, minr, el, ex⟩ := p
  cases hpt
  cases hel
  cases he
  simp only [PktVersion.serialize, List.cons_append, List.nil_append,
    decodeFrame, PktType.ofByte_toByte, decodePayload, PktVersion.deserialize]
  rw [if_pos (by simp)]
  simp

theorem decodeFrame_error (p : PktError) (hpt : p.packet_type = .ERROR)
    (hl : p.message_len < 65536) (hm : 0 ∉ p.message) :
    decodeFrame p.serialize = some (.Error p) := by
  obtain ⟨pt, e, len, msg⟩ := p
  cases hpt
  dsimp only at hl hm
  simp only [PktError.serialize, u16ToLe, List.cons_append, List.nil_append,
    List.append_assoc, decodeFrame, PktType.ofByte_toByte, decodePayload,
    PktError.deserialize]
  rw [if_pos (by simp)]
  simp only [List.getD_cons_zero, List.getD_cons_succ, List.drop_succ_cons,
    List.drop_zero, Option.map_some', Option.some.injEq, Protocol.Error.injEq,
    PktError.mk.injEq]
  refine ⟨trivial, LurkError.code_ofByte_toByte e, ?_, nulSplitFirst_of_not_mem msg hm⟩
  simp only [u16FromLe]
  omega

theorem decodeFrame_game (p : PktGame) (hpt : p.packet_type = .GAME)
    (h1 : p.initial_points < 65536) (h2 : p.stat_limit < 65536)
    (h3 : p.description_len < 65536) :
    decodeFrame p.serialize = some (.Game p) := by
  obtain ⟨pt, ip, sl, dl, desc⟩ := p
  cases hpt
  dsimp only at h1 h2 h3
  simp only [PktGame.serialize, u16ToLe, List.cons_append, List.nil_append,
    List.append_assoc, decodeFrame, PktType.ofByte_toByte, decodePayload,
    PktGame.deserialize]
  rw [if_pos (by simp)]
  simp only [List.getD_cons_zero, List.getD_cons_succ, List.drop_succ_cons,
    List.drop_zero, Option.map_some', Option.some.injEq, Protocol.Game.injEq,
    PktGame.mk.injEq]
  refine ⟨trivial, ?_, ?_, ?_, trivial⟩ <;> (simp only [u16FromLe]; omega)

theorem decodeFrame_room (p : PktRoom) (hpt : p.packet_type = .ROOM)
    (hrn : p.room_number < 65536) (hname : p.room_name.length ≤ 32)
    (h0 : 0 ∉ p.room_name) (hdl : p.description_len < 65536) :
    decodeFrame p.serialize = some (.Room p) := by
  obtain ⟨pt, rn, name, dl, desc⟩ := p
  cases hpt
  dsimp only at hrn hname h0 hdl
  simp only [PktRoom.serialize, u16ToLe, List.cons_append, List.nil_append,
    List.append_assoc, decodeFrame, PktType.ofByte_toByte, decodePayload,
    PktRoom.deserialize]
  rw [if_pos (by simp [resize_length]; omega)]
  have hslice : sliceD (rn % 256 :: rn / 256 % 256 ::
      (resize name 32 ++ (dl % 256 :: dl / 256 % 256 :: desc))) 2 34
      = (resize name 32 ++ (dl % 256 :: dl / 256 % 256 :: desc)).take 32 := rfl
  rw [hslice, take_append_len _ _ 32 (resize_length name 32)]
  have h34 : (resize name 32 ++ (dl % 256 :: dl / 256 % 256 :: desc)).getD 32 0
      = dl % 256 := by
    rw [getD_append_ge _ _ 32 0 (by simp [resize_length])]
    simp [resize_length]
  have h35 : (resize name 32 ++ (dl % 256 :: dl / 256 % 256 :: desc)).getD 33 0
      = dl / 256 % 256 := by
    rw [getD_append_ge _ _ 33 0 (by simp [resize_length])]
    simp [resize_length]
  have hdrop : (rn % 256 :: rn / 256 % 256 ::
      (resize name 32 ++ (dl % 256 :: dl / 256 % 256 :: desc))).drop 36
      = desc := by
    have h1 : (rn % 256 :: rn / 256 % 256 ::
        (resize name 32 ++ (dl % 256 :: dl / 256 % 256 :: desc))).drop 36
        = (resize name 32 ++ (dl % 256 :: dl / 256 % 256 :: desc)).drop 34 := rfl
    rw [h1, show (34 : Nat) = 32 + 2 from rfl, ← List.drop_drop,
      drop_append_len _ _ 32 (resize_length name 32)]
    rfl
  simp only [List.getD_cons_zero, List.getD_cons_succ, h34, h35, hdrop,
    Option.map_some', Option.some.injEq, Protocol.Room.injEq, PktRoom.mk.injEq]
  refine ⟨trivial, ?_, nulSplitFirst_resize name 32 hname h0, ?_, trivial⟩ <;>
    (simp only [u16FromLe]; omega)

theorem decodeFrame_connection (p : PktConnection) (hpt : p.packet_type = .CONNECTION)
    (hrn : p.room_number < 65536) (hname : p.room_name.length ≤ 32)
    (h0 : 0 ∉ p.room_name) (hdl : p.description_len < 65536) :
    decodeFrame p.serialize = some (.Connection p) := by
  obtain ⟨pt, rn, name, dl, desc⟩ := p
  cases hpt
  dsimp only at hrn hname h0 hdl
  simp only [PktConnection.serialize, u16ToLe, List.cons_append, List.nil_append,
    List.append_assoc, decodeFrame, PktType.ofByte_toByte, decodePayload,
    PktConnection.deserialize]
  rw [if_pos (by simp [resize_length]; omega)]
  have hslice : sliceD (rn % 256 :: rn / 256 % 256 ::
      (resize name 32 ++ (dl % 256 :: dl / 256 % 256 :: desc))) 2 34
      = (resize name 32 ++ (dl % 256 :: dl / 256 % 256 :: desc)).take 32 := rfl
  rw [hslice, take_append_len _ _ 32 (resize_length name 32)]
  have h34 : (resize name 32 ++ (dl % 256 :: dl / 256 % 256 :: desc)).getD 32 0
      = dl % 256 := by
    rw [getD_append_ge _ _ 32 0 (by simp [resize_length])]
    simp [resize_length]
  have h35 : (resize name 32 ++ (dl % 256 :: dl / 256 % 256 :: desc)).getD 33 0
      = dl / 256 % 256 := by
    rw [getD_append_ge _ _ 33 0 (by simp [resize_length])]
    simp [resize_length]
  have hdrop : (rn % 256 :: rn / 256 % 256 ::
      (resize name 32 ++ (dl % 256 :: dl / 256 % 256 :: desc))).drop 36
      = desc := by
    have h1 : (rn % 256 :: rn / 256 % 256 ::
        (resize name 32 ++ (dl % 256 :: dl / 256 % 256 :: desc))).drop 36
        = (resize name 32 ++ (dl % 256 :: dl / 256 % 256 :: desc)).drop 34 := rfl
    rw [h1, show (34 : Nat) = 32 + 2 from rfl, ← List.drop_drop,
      drop_append_len _ _ 32 (resize_length name 32)]
    rfl
  simp only [List.getD_cons_zero, List.getD_cons_succ, h34, h35, hdrop,
    Option.map_some', Option.some.injEq, Protocol.Connection.injEq, PktConnection.mk.injEq]
  refine ⟨trivial, ?_, nulSplitFirst_resize name 32 hname h0, ?_, trivial⟩ <;>
    (simp only [u16FromLe]; omega)

theorem nulSplitFirst_resize_resize (l : List Nat) (h : l.length ≤ 30)
    (h0 : 0 ∉ l) : nulSplitFirst (resize (resize l 30) 32) = l := by
  have e1 : resize (resize l 30) 32
      = (l ++ List.replicate (30 - l.length) 0) ++ List.replicate 2 0 := by
    rw [resize_eq_append (resize l 30) 32 (by rw [resize_length]; omega),
      resize_length, resize_eq_append l 30 h]
  rw [e1, List.append_assoc, ← List.replicate_add]
  exact nulSplitFirst_append_replicate l _ h0

theorem getD_resize_shift (nm : List Nat) (w : Nat) (X : List Nat) (i d : Nat) :
    (resize nm w ++ X).getD (w + i) d = X.getD i d := by
  rw [getD_append_ge _ _ (w + i) d (by simp [resize_length])]
  simp [resize_length]

theorem decodeFrame_message (m : PktMessage) (hpt : m.packet_type = .MESSAGE)
    (hlen : m.message_len < 65536) (hr : m.recipient.length ≤ 32)
    (hr0 : 0 ∉ m.recipient) (hs : m.sender.length ≤ 30) (hs0 : 0 ∉ m.sender)
    (hn : m.narration = false) :
    decodeFrame m.serialize = some (.Message m) := by
  obtain ⟨pt, len, r, snd, narr, msg⟩ := m
  cases hpt
  cases hn
  dsimp only at hlen hr hr0 hs hs0
  simp only [PktMessage.serialize, u16ToLe, List.cons_append, List.nil_append,
    List.append_assoc, Bool.false_eq_true, if_false, decodeFrame,
    PktType.ofByte_toByte, decodePayload, PktMessage.deserialize]
  rw [if_pos (by simp [resize_length]; omega)]
  have hsr : sliceD (len % 256 :: len / 256 % 256 ::
      (resize r 32 ++ (resize (resize snd 30) 32 ++ msg))) 2 34
      = (resize r 32 ++ (resize (resize snd 30) 32 ++ msg)).take 32 := rfl
  have hss : sliceD (len % 256 :: len / 256 % 256 ::
      (resize r 32 ++ (resize (resize snd 30) 32 ++ msg))) 34 66
      = ((resize r 32 ++ (resize (resize snd 30) 32 ++ msg)).drop 32).take 32 := rfl
  rw [hsr, take_append_len _ _ 32 (resize_length r 32), hss,
    drop_append_len _ _ 32 (resize_length r 32),
    take_append_len _ _ 32 (resize_length (resize snd 30) 32)]
  have hnone : sliceRange (resize (resize snd 30) 32) 32 34 = none := by
    rw [sliceRange, if_neg]
    simp [resize_length]
  rw [hnone]
  have hdrop : (len % 256 :: len / 256 % 256 ::
      (resize r 32 ++ (resize (resize snd 30) 32 ++ msg))).drop 66 = msg := by
    have h1 : (len % 256 :: len / 256 % 256 ::
        (resize r 32 ++ (resize (resize snd 30) 32 ++ msg))).drop 66
        = (resize r 32 ++ (resize (resize snd 30) 32 ++ msg)).drop 64 := rfl
    rw [h1, show (64 : Nat) = 32 + 32 from rfl, ← List.drop_drop,
      drop_append_len _ _ 32 (resize_length r 32),
      drop_append_len _ _ 32 (resize_length (resize snd 30) 32)]
  simp only [List.getD_cons_zero, List.getD_cons_succ, hdrop, Option.map_some',
    Option.some.injEq, Protocol.Message.injEq, PktMessage.mk.injEq]
  refine ⟨trivial, ?_, nulSplitFirst_resize r 32 hr hr0,
    nulSplitFirst_resize_resize snd hs hs0, trivial, trivial⟩
  simp only [u16FromLe]
  omega

theorem decodeFrame_character (p : PktCharacter) (hpt : p.packet_type = .CHARACTER)
    (hname : p.name.length ≤ 32) (h0 : 0 ∉ p.name)
    (hfl : p.flags.bits &&& 0xF8 = p.flags.bits)
    (hatt : p.attack < 65536) (hdef : p.defense < 65536) (hreg : p.regen < 65536)
    (hh1 : -32768 ≤ p.health) (hh2 : p.health < 32768)
    (hgold : p.gold < 65536) (hroom : p.current_room < 65536)
    (hdl : p.description_len < 65536) :
    decodeFrame p.serialize = some (.Character p) := by
  obtain ⟨pt, name, ⟨bits⟩, att, dfn, rgn, health, gold, room, dl, desc⟩ := p
  cases hpt
  dsimp only at hname h0 hfl hatt hdef hreg hh1 hh2 hgold hroom hdl
  simp only [PktCharacter.serialize, u16ToLe, i16ToLe, List.cons_append,
    List.nil_append, List.append_assoc, decodeFrame, PktType.ofByte_toByte,
    decodePayload, PktCharacter.deserialize]
  rw [if_pos (by simp [resize_length]; omega)]
  have hslice : ∀ X : List Nat, sliceD (resize name 32 ++ X) 0 32 = resize name 32 := by
    intro X
    show (resize name 32 ++ X).take 32 = resize name 32
    exact take_append_len _ _ 32 (resize_length name 32)
  have hat32 : ∀ (X : List Nat) (d : Nat), (resize name 32 ++ X).getD 32 d = X.getD 0 d := by
    intro X d
    have := getD_resize_shift name 32 X 0 d
    simpa using this
  rw [hslice]
  simp only [show (33 : Nat) = 32 + 1 from rfl, show (34 : Nat) = 32 + 2 from rfl,
    show (35 : Nat) = 32 + 3 from rfl, show (36 : Nat) = 32 + 4 from rfl,
    show (37 : Nat) = 32 + 5 from rfl, show (38 : Nat) = 32 + 6 from rfl,
    show (39 : Nat) = 32 + 7 from rfl, show (40 : Nat) = 32 + 8 from rfl,
    show (41 : Nat) = 32 + 9 from rfl, show (42 : Nat) = 32 + 10 from rfl,
    show (43 : Nat) = 32 + 11 from rfl, show (44 : Nat) = 32 + 12 from rfl,
    show (45 : Nat) = 32 + 13 from rfl, show (46 : Nat) = 32 + 14 from rfl,
    hat32, getD_resize_shift, List.getD_cons_zero, List.getD_cons_succ]
  have hdrop : (resize name 32 ++ (bits :: (att % 256 :: att / 256 % 256 ::
      (dfn % 256 :: dfn / 256 % 256 :: (rgn % 256 :: rgn / 256 % 256 ::
      ((health % 65536).toNat % 256 :: (health % 65536).toNat / 256 % 256 ::
      (gold % 256 :: gold / 256 % 256 :: (room % 256 :: room / 256 % 256 ::
      (dl % 256 :: dl / 256 % 256 :: desc))))))))).drop 47 = desc := by
    rw [show (47 : Nat) = 32 + 15 from rfl, ← List.drop_drop,
      drop_append_len _ _ 32 (resize_length name 32)]
    rfl
  rw [hdrop]
  simp only [CharacterFlags.from_bits_truncate, Option.map_some',
    Option.some.injEq, Protocol.Character.injEq, PktCharacter.mk.injEq]
  refine ⟨trivial, nulSplitFirst_resize name 32 hname h0, ?_, ?_, ?_, ?_, ?_,
    ?_, ?_, ?_, trivial⟩
  · simp only [CharacterFlags.mk.injEq]
    exact hfl
  · simp only [u16FromLe]; omega
  · simp only [u16FromLe]; omega
  · simp only [u16FromLe]; omega
  · simp only [i16FromLe]; omega
  · simp only [u16FromLe]; omega
  · simp only [u16FromLe]; omega
  · simp only [u16FromLe]; omega

/-- The values a conformant sender can produce: the tag field matches the
payload's kind, fixed-width text fields fit their widths and are NUL-free,
numeric fields are in range, reserved flag bits are clear, the Message is
not narration and the Version carries no extensions (the two wire behaviors
under which decode is not inverse to encode). -/
@[reducible] def Fits : Protocol → Prop
  | .Message m => m.packet_type = .MESSAGE ∧ m.message_len < 65536 ∧
      m.recipient.length ≤ 32 ∧ 0 ∉ m.recipient ∧
      m.sender.length ≤ 30 ∧ 0 ∉ m.sender ∧ m.narration = false
  | .ChangeRoom p => p.packet_type = .CHANGEROOM ∧ p.room_number < 65536
  | .Fight p => p.packet_type = .FIGHT
  | .PVPFight p => p.packet_type = .PVPFIGHT ∧
      p.target_name.length ≤ 32 ∧ 0 ∉ p.target_name
  | .Loot p => p.packet_type = .LOOT ∧
      p.target_name.length ≤ 32 ∧ 0 ∉ p.target_name
  | .Start p => p.packet_type = .START
  | .Error p => p.packet_type = .ERROR ∧ p.message_len < 65536 ∧ 0 ∉ p.message
  | .Accept p => p.packet_type = .ACCEPT
  | .Room p => p.packet_type = .ROOM ∧ p.room_number < 65536 ∧
      p.room_name.length ≤ 32 ∧ 0 ∉ p.room_name ∧ p.description_len < 65536
  | .Character p => p.packet_type = .CHARACTER ∧
      p.name.length ≤ 32 ∧ 0 ∉ p.name ∧
      p.flags.bits &&& 0xF8 = p.flags.bits ∧
      p.attack < 65536 ∧ p.defense < 65536 ∧ p.regen < 65536 ∧
      -32768 ≤ p.health ∧ p.health < 32768 ∧
      p.gold < 65536 ∧ p.current_room < 65536 ∧ p.description_len < 65536
  | .Game p => p.packet_type = .GAME ∧ p.initial_points < 65536 ∧
      p.stat_limit < 65536 ∧ p.description_len < 65536
  | .Leave p => p.packet_type = .LEAVE
  | .Connection p => p.packet_type = .CONNECTION ∧ p.room_number < 65536 ∧
      p.room_name.length ≤ 32 ∧ 0 ∉ p.room_name ∧ p.description_len < 65536
  | .Version p => p.packet_type = .VERSION ∧ p.extensions_len = 0 ∧
      p.extensions = none

/-- C1 (amended): for every message kind, decoding the frame built from the
encoder's bytes yields the original payload, for all values whose tag
matches the kind, whose text/name fields fit their widths and contain no
NUL byte, whose numeric fields are in range, whose reserved flag bits are
zero — excluding the two documented asymmetries: Message payloads with
`narration = true` (the decoder's marker check never fires) and Version
payloads carrying extensions (decode always yields none). -/
theorem claim_C1 (p : Protocol) (h : Fits p) :
    decodeFrame (Protocol.encode p) = some p := by
  cases p with
  | Message m =>
    obtain ⟨h1, h2, h3, h4, h5, h6, h7⟩ := h
    exact decodeFrame_message m h1 h2 h3 h4 h5 h6 h7
  | ChangeRoom q =>
    obtain ⟨h1, h2⟩ := h
    exact decodeFrame_changeRoom q h1 h2
  | Fight q => exact decodeFrame_fight q h
  | PVPFight q =>
    obtain ⟨h1, h2, h3⟩ := h
    exact decodeFrame_pvpFight q h1 h2 h3
  | Loot q =>
    obtain ⟨h1, h2, h3⟩ := h
    exact decodeFrame_loot q h1 h2 h3
  | Start q => exact decodeFrame_start q h
  | Error q =>
    obtain ⟨h1, h2, h3⟩ := h
    exact decodeFrame_error q h1 h2 h3
  | Accept q => exact decodeFrame_accept q h
  | Room q =>
    obtain ⟨h1, h2, h3, h4, h5⟩ := h
    exact decodeFrame_room q h1 h2 h3 h4 h5
  | Character q =>
    obtain ⟨h1, h2, h3, h4, h5, h6, h7, h8, h9, h10, h11, h12⟩ := h
    exact decodeFrame_character q h1 h2 h3 h4 h5 h6 h7 h8 h9 h10 h11 h12
  | Game q =>
    obtain ⟨h1, h2, h3, h4⟩ := h
    exact decodeFrame_game q h1 h2 h3 h4
  | Leave q => exact decodeFrame_leave q h
  | Connection q =>
    obtain ⟨h1, h2, h3, h4, h5⟩ := h
    exact decodeFrame_connection q h1 h2 h3 h4 h5
  | Version q =>
    obtain ⟨h1, h2, h3⟩ := h
    exact decodeFrame_version q h1 h2 h3

/-- A Version payload carrying a 2-byte extension list; every one of its
text/name fields (there are none) trivially fits its declared width. -/
def versionExtSample : PktVersion :=
  { packet_type := .VERSION
    major_rev := 1
    minor_rev := 0
    extensions_len := 2
    extensions := some [7, 7] }

/-- The spec's concrete Room scenario: room 1, name "Test", a 38-byte
description ("Auto-generated connection description."). -/
def roomSample : PktRoom :=
  { packet_type := .ROOM
    room_number := 1
    room_name := [84, 101, 115, 116]
    description_len := 38
    description := [65, 117, 116, 111, 45, 103, 101, 110, 101, 114, 97, 116,
      101, 100, 32, 99, 111, 110, 110, 101, 99, 116, 105, 111, 110, 32, 100,
      101, 115, 99, 114, 105, 112, 116, 105, 111, 110, 46] }

/-- C1 counterexample: a Version payload carrying a 2-byte extension list —
all of its text/name fields (there are none) trivially fit their widths —
does not round trip: decode forces `extensions_len = 0, extensions = none`. -/
theorem claim_C1_counterexample :
    decodeFrame (Protocol.encode (.Version versionExtSample))
    ≠ some (.Version versionExtSample) := by decide

/-- C1 witness: the spec's concrete Room scenario satisfies the hypotheses
and round trips. -/
theorem claim_C1_witness :
    Fits (.Room roomSample) ∧
    decodeFrame (Protocol.encode (.Room roomSample)) = some (.Room roomSample) :=
  ⟨by decide, claim_C1 _ (by decide)⟩

/-- A narrator message as built by `PktMessage::narrator("Bob", "hi")`:
sender "Narrator", narration set. -/
def narratorSample : PktMessage :=
  { packet_type := .MESSAGE
    message_len := 2
    recipient := [66, 111, 98]
    sender := [78, 97, 114, 114, 97, 116, 111, 114]
    narration := true
    message := [104, 105] }

/-- C2: the encoder does place the 2-byte narration marker `0x00 0x01` in
the last two bytes of the 32-byte sender field (body bytes 64–65), but the
decoder's check reads `s_bytes.get(32..34)` of the 32-byte sender slice —
always out of range — so decoding the encoded narrator frame yields
`narration = false`, contradicting the code's own comment ("If the last 2
bytes of the sender is 0x00 0x01, it means the sender is a narrator"), the
encoder, and the claim. -/
theorem claim_C2_eval :
    sliceD ((PktMessage.serialize narratorSample).drop 1) 64 66 = [0x00, 0x01] ∧
    (PktMessage.deserialize .MESSAGE
      ((PktMessage.serialize narratorSample).drop 1)).map PktMessage.narration
    = some false := by decide

/-- C5: byte-to-enum conversion round trips on every defined MessageKind and
ErrorCode, and every out-of-range byte (≥ 15 / ≥ 9) maps totally to the
sentinel (`DEFAULT` / `OTHER`). -/
theorem claim_C5 :
    (∀ k : PktType, PktType.ofByte k.toByte = k) ∧
    (∀ e : LurkError, LurkError.ofByte e.toByte = e) ∧
    (∀ b : Nat, 15 ≤ b → PktType.ofByte b = .DEFAULT) ∧
    (∀ b : Nat, 9 ≤ b → LurkError.ofByte b = .OTHER) := by
  refine ⟨PktType.ofByte_toByte, LurkError.code_ofByte_toByte, ?_, ?_⟩
  · intro b hb
    obtain ⟨n, rfl⟩ : ∃ n, b = n + 15 := ⟨b - 15, by omega⟩
    rfl
  · intro b hb
    obtain ⟨n, rfl⟩ : ∃ n, b = n + 9 := ⟨b - 9, by omega⟩
    rfl

/-- C5 witness: concrete instances of the conversions. -/
theorem claim_C5_witness :
    PktType.ofByte (PktType.toByte .VERSION) = .VERSION ∧
    LurkError.ofByte (LurkError.toByte .NOPLAYERCOMBAT) = .NOPLAYERCOMBAT ∧
    PktType.ofByte 255 = .DEFAULT ∧ LurkError.ofByte 9 = .OTHER :=
  ⟨claim_C5.1 .VERSION, claim_C5.2.1 .NOPLAYERCOMBAT,
    claim_C5.2.2.1 255 (by omega), claim_C5.2.2.2 9 (by omega)⟩

/-- C6: Version decode always yields extension length 0 and no extension
bytes, regardless of the frame body; Version encode emits the extension
bytes whenever the payload carries them. -/
theorem claim_C6 :
    (∀ (mt : PktType) (body : List Nat), 2 ≤ body.length →
      (PktVersion.deserialize mt body).map (fun p => (p.extensions_len, p.extensions))
        = some (0, none)) ∧
    (∀ (v : PktVersion) (e : List Nat), v.extensions = some e →
      PktVersion.serialize v
        = [v.packet_type.toByte, v.major_rev, v.minor_rev]
          ++ u16ToLe v.extensions_len ++ e) := by
  constructor
  · intro mt body h
    rw [PktVersion.deserialize, if_pos h]
    rfl
  · intro v e he
    simp [PktVersion.serialize, he]

/-- A Version payload carrying a single extension byte. -/
def versionOneExt : PktVersion :=
  { packet_type := .VERSION
    major_rev := 1
    minor_rev := 2
    extensions_len := 1
    extensions := some [5] }

/-- C6 witness: a frame body advertising 2 extension bytes still decodes to
no extensions; encoding a payload with one extension byte emits it. -/
theorem claim_C6_witness :
    (PktVersion.deserialize .VERSION [2, 3, 2, 0, 9, 9]).map
      (fun p => (p.extensions_len, p.extensions)) = some (0, none) ∧
    PktVersion.serialize versionOneExt
      = [PktType.toByte .VERSION, 1, 2] ++ u16ToLe 1 ++ [5] :=
  ⟨claim_C6.1 .VERSION [2, 3, 2, 0, 9, 9] (by decide), claim_C6.2 _ [5] rfl⟩

/-- C7: the CharacterFlags presets set exactly the claimed bits (`reset`:
ALIVE and BATTLE set, MONSTER/STARTED/READY clear; `dead`: ALIVE clear,
BATTLE and READY set; `alive`: ALIVE, BATTLE and READY set), and the four
bit predicates agree with bit membership on every preset. -/
theorem claim_C7 :
    (CharacterFlags.reset.contains CharacterFlags.ALIVE = true ∧
     CharacterFlags.reset.contains CharacterFlags.BATTLE = true ∧
     CharacterFlags.reset.contains CharacterFlags.MONSTER = false ∧
     CharacterFlags.reset.contains CharacterFlags.STARTED = false ∧
     CharacterFlags.reset.contains CharacterFlags.READY = false) ∧
    (CharacterFlags.dead.contains CharacterFlags.ALIVE = false ∧
     CharacterFlags.dead.contains CharacterFlags.BATTLE = true ∧
     CharacterFlags.dead.contains CharacterFlags.READY = true) ∧
    (CharacterFlags.alive.contains CharacterFlags.ALIVE = true ∧
     CharacterFlags.alive.contains CharacterFlags.BATTLE = true ∧
     CharacterFlags.alive.contains CharacterFlags.READY = true) ∧
    (∀ f ∈ [CharacterFlags.reset, CharacterFlags.dead, CharacterFlags.alive],
      f.is_alive = f.contains CharacterFlags.ALIVE ∧
      f.is_battle = f.contains CharacterFlags.BATTLE ∧
      f.is_started = f.contains CharacterFlags.STARTED ∧
      f.is_ready = f.contains CharacterFlags.READY) := by decide

/-- C8: `Protocol::send` serializes the payload completely into one
in-memory buffer and then performs exactly one `write_all` of that whole
(nonempty) frame on the connection; no partial frame is ever written. -/
theorem claim_C8 (p : Protocol) :
    Protocol.send p = [Protocol.encode p] ∧ Protocol.encode p ≠ [] := by
  refine ⟨rfl, ?_⟩
  cases p <;>
    simp [Protocol.encode, PktMessage.serialize, PktChangeRoom.serialize,
      PktFight.serialize, PktPVPFight.serialize, PktLoot.serialize,
      PktStart.serialize, PktError.serialize, PktAccept.serialize,
      PktRoom.serialize, PktCharacter.serialize, PktGame.serialize,
      PktLeave.serialize, PktConnection.serialize, PktVersion.serialize]

/-- A Loot payload whose target name is 33 bytes of 'a'. -/
def lootLongName : PktLoot :=
  { packet_type := .LOOT
    target_name := List.replicate 33 97 }

/-- C9 counterexample: encoding a Loot whose target name is 33 bytes long
emits the 32-byte truncated prefix, not the full text — encode does clamp. -/
theorem claim_C9_counterexample :
    (PktLoot.serialize lootLongName).drop 1 = List.replicate 32 97 ∧
    (PktLoot.serialize lootLongName).drop 1 ≠ List.replicate 33 97 := by decide

/-- C9 (amended): every fixed-width text field is emitted as exactly its
declared width: the text's prefix of at most the width, right-padded with
0x00 — longer input is clamped to the width (`Vec::resize` semantics), so
the emitted field and the Loot frame length are width-fixed. -/
theorem claim_C9 :
    (∀ m : PktMessage, ((PktMessage.serialize m).drop 3).take 32
        = m.recipient.take 32 ++ List.replicate (32 - m.recipient.length) 0) ∧
    (∀ p : PktLoot, (PktLoot.serialize p).drop 1
        = p.target_name.take 32 ++ List.replicate (32 - p.target_name.length) 0) ∧
    (∀ p : PktCharacter, ((PktCharacter.serialize p).drop 1).take 32
        = p.name.take 32 ++ List.replicate (32 - p.name.length) 0) ∧
    (∀ p : PktLoot, (PktLoot.serialize p).length = 33) := by
  refine ⟨?_, ?_, ?_, ?_⟩
  · intro m
    simp only [PktMessage.serialize, u16ToLe, List.cons_append, List.nil_append,
      List.append_assoc, List.drop_succ_cons, List.drop_zero]
    rw [take_append_len _ _ 32 (resize_length m.recipient 32)]
    rfl
  · intro p
    simp only [PktLoot.serialize, List.cons_append, List.nil_append,
      List.drop_succ_cons, List.drop_zero]
    rfl
  · intro p
    simp only [PktCharacter.serialize, List.cons_append, List.nil_append,
      List.append_assoc, List.drop_succ_cons, List.drop_zero]
    rw [take_append_len _ _ 32 (resize_length p.name 32)]
    rfl
  · intro p
    simp [PktLoot.serialize, resize_length]

/-- C10: the Accept codec preserves the accepted-kind byte verbatim for
every byte value: decoding the 1-byte body `[b]` yields `accept_type = b`
with no sentinel-defaulting, and re-encoding reproduces `[0x08, b]`. -/
theorem claim_C10 (b : Nat) (_hb : b < 256) :
    PktAccept.deserialize .ACCEPT [b]
      = some { packet_type := .ACCEPT, accept_type := b } ∧
    PktAccept.serialize { packet_type := .ACCEPT, accept_type := b }
      = [8, b] := by
  constructor
  · rw [PktAccept.deserialize, if_pos (by simp)]
    rfl
  · rfl

/-- C10 witness: the boundary byte 255, not a valid MessageKind tag, is
preserved verbatim. -/
theorem claim_C10_witness :
    PktAccept.deserialize .ACCEPT [255]
      = some { packet_type := .ACCEPT, accept_type := 255 } ∧
    PktAccept.serialize { packet_type := .ACCEPT, accept_type := 255 }
      = [8, 255] :=
  claim_C10 255 (by omega)

/-- Behavior of `Packet::read_extended` on a sufficiently long stream: read the `n`-byte
prefix, extract the little-endian u16 at offsets `(i, j)` of that prefix,
read that many further bytes, and return prefix ++ extra with the rest. -/
theorem read_extended_spec (s : List Nat) (n i j : Nat) (hi : i < n) (hj : j < n)
    (h : n + u16FromLe (s.getD i 0) (s.getD j 0) ≤ s.length) :
    Packet.read_extended s n (i, j)
      = some (s.take (n + u16FromLe (s.getD i 0) (s.getD j 0)),
              s.drop (n + u16FromLe (s.getD i 0) (s.getD j 0))) := by
  unfold Packet.read_extended readExact
  rw [if_pos (by omega)]
  simp only [Option.bind_eq_bind, Option.some_bind]
  rw [getD_take s n i 0 hi, getD_take s n j 0 hj,
    if_pos (show u16FromLe (s.getD i 0) (s.getD j 0) ≤ (s.drop n).length by
      rw [List.length_drop]; omega)]
  simp only [Option.some_bind]
  rw [List.drop_drop, ← List.take_add]
  rfl

/-- C3: for every extended message kind, `recv` reads the kind's fixed-size
prefix (Message 66, Error 3, Room 36, Connection 36, Character 47, Game 6,
Version 4), extracts the little-endian u16 length L from the designated
offset pair ((0,1), (1,2), (34,35), (34,35), (45,46), (4,5), (2,3)), reads
exactly L further bytes, and invokes that kind's decode on the prefix with
those L bytes appended, consuming exactly 1 + prefix + L bytes in total. -/
theorem claim_C3 :
    (∀ s : List Nat, 66 + u16FromLe (s.getD 0 0) (s.getD 1 0) ≤ s.length →
      ∃ p, PktMessage.deserialize .MESSAGE
          (s.take (66 + u16FromLe (s.getD 0 0) (s.getD 1 0))) = some p ∧
        Protocol.recv (PktType.toByte .MESSAGE :: s)
          = .ok (.Message p, s.drop (66 + u16FromLe (s.getD 0 0) (s.getD 1 0)))) ∧
    (∀ s : List Nat, 3 + u16FromLe (s.getD 1 0) (s.getD 2 0) ≤ s.length →
      ∃ p, PktError.deserialize .ERROR
          (s.take (3 + u16FromLe (s.getD 1 0) (s.getD 2 0))) = some p ∧
        Protocol.recv (PktType.toByte .ERROR :: s)
          = .ok (.Error p, s.drop (3 + u16FromLe (s.getD 1 0) (s.getD 2 0)))) ∧
    (∀ s : List Nat, 36 + u16FromLe (s.getD 34 0) (s.getD 35 0) ≤ s.length →
      ∃ p, PktRoom.deserialize .ROOM
          (s.take (36 + u16FromLe (s.getD 34 0) (s.getD 35 0))) = some p ∧
        Protocol.recv (PktType.toByte .ROOM :: s)
          = .ok (.Room p, s.drop (36 + u16FromLe (s.getD 34 0) (s.getD 35 0)))) ∧
    (∀ s : List Nat, 36 + u16FromLe (s.getD 34 0) (s.getD 35 0) ≤ s.length →
      ∃ p, PktConnection.deserialize .CONNECTION
          (s.take (36 + u16FromLe (s.getD 34 0) (s.getD 35 0))) = some p ∧
        Protocol.recv (PktType.toByte .CONNECTION :: s)
          = .ok (.Connection p, s.drop (36 + u16FromLe (s.getD 34 0) (s.getD 35 0)))) ∧
    (∀ s : List Nat, 47 + u16FromLe (s.getD 45 0) (s.getD 46 0) ≤ s.length →
      ∃ p, PktCharacter.deserialize .CHARACTER
          (s.take (47 + u16FromLe (s.getD 45 0) (s.getD 46 0))) = some p ∧
        Protocol.recv (PktType.toByte .CHARACTER :: s)
          = .ok (.Character p, s.drop (47 + u16FromLe (s.getD 45 0) (s.getD 46 0)))) ∧
    (∀ s : List Nat, 6 + u16FromLe (s.getD 4 0) (s.getD 5 0) ≤ s.length →
      ∃ p, PktGame.deserialize .GAME
          (s.take (6 + u16FromLe (s.getD 4 0) (s.getD 5 0))) = some p ∧
        Protocol.recv (PktType.toByte .GAME :: s)
          = .ok (.Game p, s.drop (6 + u16FromLe (s.getD 4 0) (s.getD 5 0)))) ∧
    (∀ s : List Nat, 4 + u16FromLe (s.getD 2 0) (s.getD 3 0) ≤ s.length →
      ∃ p, PktVersion.deserialize .VERSION
          (s.take (4 + u16FromLe (s.getD 2 0) (s.getD 3 0))) = some p ∧
        Protocol.recv (PktType.toByte .VERSION :: s)
          = .ok (.Version p, s.drop (4 + u16FromLe (s.getD 2 0) (s.getD 3 0)))) := by
  refine ⟨?_, ?_, ?_, ?_, ?_, ?_, ?_⟩
  · intro s h
    have hre := read_extended_spec s 66 0 1 (by omega) (by omega) h
    obtain ⟨p, hp⟩ : ∃ p, PktMessage.deserialize .MESSAGE
        (s.take (66 + u16FromLe (s.getD 0 0) (s.getD 1 0))) = some p :=
      ⟨_, by rw [PktMessage.deserialize, if_pos (by rw [List.length_take]; omega)]⟩
    exact ⟨p, hp, by simp only [Protocol.recv, PktType.ofByte_toByte, hre, hp]⟩
  · intro s h
    have hre := read_extended_spec s 3 1 2 (by omega) (by omega) h
    obtain ⟨p, hp⟩ : ∃ p, PktError.deserialize .ERROR
        (s.take (3 + u16FromLe (s.getD 1 0) (s.getD 2 0))) = some p :=
      ⟨_, by rw [PktError.deserialize, if_pos (by rw [List.length_take]; omega)]⟩
    exact ⟨p, hp, by simp only [Protocol.recv, PktType.ofByte_toByte, hre, hp]⟩
  · intro s h
    have hre := read_extended_spec s 36 34 35 (by omega) (by omega) h
    obtain ⟨p, hp⟩ : ∃ p, PktRoom.deserialize .ROOM
        (s.take (36 + u16FromLe (s.getD 34 0) (s.getD 35 0))) = some p :=
      ⟨_, by rw [PktRoom.deserialize, if_pos (by rw [List.length_take]; omega)]⟩
    exact ⟨p, hp, by simp only [Protocol.recv, PktType.ofByte_toByte, hre, hp]⟩
  · intro s h
    have hre := read_extended_spec s 36 34 35 (by omega) (by omega) h
    obtain ⟨p, hp⟩ : ∃ p, PktConnection.deserialize .CONNECTION
        (s.take (36 + u16FromLe (s.getD 34 0) (s.getD 35 0))) = some p :=
      ⟨_, by rw [PktConnection.deserialize, if_pos (by rw [List.length_take]; omega)]⟩
    exact ⟨p, hp, by simp only [Protocol.recv, PktType.ofByte_toByte, hre, hp]⟩
  · intro s h
    have hre := read_extended_spec s 47 45 46 (by omega) (by omega) h
    obtain ⟨p, hp⟩ : ∃ p, PktCharacter.deserialize .CHARACTER
        (s.take (47 + u16FromLe (s.getD 45 0) (s.getD 46 0))) = some p :=
      ⟨_, by rw [PktCharacter.deserialize, if_pos (by rw [List.length_take]; omega)]⟩
    exact ⟨p, hp, by simp only [Protocol.recv, PktType.ofByte_toByte, hre, hp]⟩
  · intro s h
    have hre := read_extended_spec s 6 4 5 (by omega) (by omega) h
    obtain ⟨p, hp⟩ : ∃ p, PktGame.deserialize .GAME
        (s.take (6 + u16FromLe (s.getD 4 0) (s.getD 5 0))) = some p :=
      ⟨_, by rw [PktGame.deserialize, if_pos (by rw [List.length_take]; omega)]⟩
    exact ⟨p, hp, by simp only [Protocol.recv, PktType.ofByte_toByte, hre, hp]⟩
  · intro s h
    have hre := read_extended_spec s 4 2 3 (by omega) (by omega) h
    obtain ⟨p, hp⟩ : ∃ p, PktVersion.deserialize .VERSION
        (s.take (4 + u16FromLe (s.getD 2 0) (s.getD 3 0))) = some p :=
      ⟨_, by rw [PktVersion.deserialize, if_pos (by rw [List.length_take]; omega)]⟩
    exact ⟨p, hp, by simp only [Protocol.recv, PktType.ofByte_toByte, hre, hp]⟩

/-- C3 witness: a Message stream whose 66-byte prefix advertises length 0
is consumed whole and decoded. -/
theorem claim_C3_witness :
    ∃ p, PktMessage.deserialize .MESSAGE ((List.replicate 66 0).take 66) = some p ∧
      Protocol.recv (PktType.toByte .MESSAGE :: List.replicate 66 0)
        = .ok (.Message p, (List.replicate 66 0).drop 66) :=
  claim_C3.1 (List.replicate 66 0) (by decide)

/-- C4: `recv` fails with the unsupported-message condition exactly when
the tag byte it read resolves to the `DEFAULT` sentinel kind; an absent
read is the distinct transport-class `UnexpectedEof` failure, and no
non-DEFAULT kind ever produces the unsupported condition. -/
theorem claim_C4 :
    (∀ s : List Nat, Protocol.recv s = .error .unsupported ↔
      ∃ b t, s = b :: t ∧ PktType.ofByte b = .DEFAULT) ∧
    Protocol.recv [] = .error .unexpectedEof := by
  constructor
  · intro s
    constructor
    · intro h
      match s with
      | [] => simp [Protocol.recv] at h
      | b :: t =>
        refine ⟨b, t, rfl, ?_⟩
        cases hk : PktType.ofByte b
        case DEFAULT => rfl
        all_goals simp only [Protocol.recv, hk] at h
        all_goals
          first
            | (split at h <;>
                first
                  | (split at h <;> simp_all)
                  | simp_all)
            | simp_all
    · rintro ⟨b, t, rfl, hk⟩
      simp [Protocol.recv, hk]
  · rfl

/-- C4 witness: tag byte 255 raises the unsupported condition; the empty
stream raises the transport condition. -/
theorem claim_C4_witness :
    Protocol.recv [255] = .error .unsupported ∧
    Protocol.recv [] = .error .unexpectedEof :=
  ⟨(claim_C4.1 [255]).mpr ⟨255, [], rfl, by decide⟩, claim_C4.2⟩

end Lurk
